import Mathlib

/-!
Shallow embedding of the domain-event core of the cryptic-pets backend:
`domain/common/events.py` (DomainEvent, DomainEventHandler, EventBus,
module-level global bus), `domain/common/event_publisher.py`
(EventPublisher and its lazy `event_bus` property), and
`domain/base_entity.py` / `domain/common/aggregate_root.py`
(the pending domain-event list of an aggregate).

Python classes of events are modelled as `Nat` tags (`etype`); handler
object identity is a `Nat` (`hid`); a handler's observable behaviour on an
event is whether its `handle` coroutine raises, modelled by the Boolean
field `handle_raises`.  Exceptions are modelled with `Except Unit`.
Mutable Python objects reached through references (the module-level
`_event_bus`, the `list` object behind `_domain_events`) are modelled with
explicit heaps indexed by `Nat` addresses.
-/

set_option autoImplicit false

/-- `DomainEvent` (events.py): an immutable event.  `etype` is the concrete
Python class of the event (dispatch key `type(event)`), `event_id`
distinguishes instances. -/
structure DomainEvent where
  etype : Nat
  event_id : Nat
deriving DecidableEq, Repr

/-- `DomainEventHandler` (events.py): `hid` is the handler object's
identity; `handle_raises e` tells whether `await handler.handle(e)` raises
an exception. -/
structure DomainEventHandler where
  hid : Nat
  handle_raises : DomainEvent → Bool

/-- The observable outcome of `await handler.handle(event)`:
raises iff `handle_raises` says so. -/
def DomainEventHandler.handle (h : DomainEventHandler) (e : DomainEvent) :
    Except Unit Unit :=
  if h.handle_raises e then .error () else .ok ()

/-- One recorded handler invocation: which handler was called, on which
event, and whether its `handle` raised (the exception being logged and
swallowed by the bus). -/
structure Invocation where
  hid : Nat
  event : DomainEvent
  raised : Bool
deriving DecidableEq, Repr

/-- The handler registry type of `EventBus._handlers`:
an insertion-ordered `dict[type[DomainEvent], list[DomainEventHandler]]`. -/
abbrev Registry : Type := List (Nat × List DomainEventHandler)

/-- `event_type in self._handlers`. -/
def dict_contains : Registry → Nat → Bool
  | [], _ => false
  | p :: rest, t => p.1 == t || dict_contains rest t

/-- `self._handlers.get(event_type, [])`. -/
def dict_getD : Registry → Nat → List DomainEventHandler
  | [], _ => []
  | p :: rest, t => if p.1 = t then p.2 else dict_getD rest t

/-- Replace the value at the first entry for key `t` (dict keys are unique
in Python, so at most one entry exists in any reachable registry). -/
def dict_replace : Registry → Nat → List DomainEventHandler → Registry
  | [], _, _ => []
  | p :: rest, t, l => if p.1 = t then (t, l) :: rest else p :: dict_replace rest t l

/-- `self._handlers[event_type] = l`: update in place if the key is
present, else append the new key at the end (dict insertion order). -/
def dict_set (m : Registry) (t : Nat) (l : List DomainEventHandler) : Registry :=
  if dict_contains m t then dict_replace m t l else m ++ [(t, l)]

/-- `EventBus` (events.py): wraps the `_handlers` registry. -/
structure EventBus where
  handlers : Registry

/-- `EventBus.__init__`: empty registry. -/
def EventBus.init : EventBus := ⟨[]⟩

/-- `EventBus.subscribe`: `if event_type not in self._handlers:
self._handlers[event_type] = []` then
`self._handlers[event_type].append(handler)`. -/
def EventBus.subscribe (bus : EventBus) (t : Nat) (h : DomainEventHandler) :
    EventBus :=
  let m := if dict_contains bus.handlers t then bus.handlers
           else dict_set bus.handlers t []
  ⟨dict_set m t (dict_getD m t ++ [h])⟩

/-- `list.remove(handler)` with the surrounding `try/except ValueError:
pass`: drop the first element whose identity matches; leave the list
unchanged when none does. -/
def remove_first : List DomainEventHandler → Nat → List DomainEventHandler
  | [], _ => []
  | h :: rest, i => if h.hid = i then rest else h :: remove_first rest i

/-- `EventBus.unsubscribe`: only acts when the key is present; a missing
handler is swallowed (`except ValueError: pass`). -/
def EventBus.unsubscribe (bus : EventBus) (t : Nat) (h : DomainEventHandler) :
    EventBus :=
  if dict_contains bus.handlers t then
    ⟨dict_set bus.handlers t (remove_first (dict_getD bus.handlers t) h.hid)⟩
  else bus

/-- The `try: await handler.handle(event) except Exception as e:
logger.error(...)` body of the publish loop: the invocation is recorded,
and an exception raised by the handler is caught, never re-raised. -/
def try_handle (h : DomainEventHandler) (e : DomainEvent) :
    Except Unit Invocation :=
  match h.handle e with
  | .ok _ => .ok ⟨h.hid, e, false⟩
  | .error _ => .ok ⟨h.hid, e, true⟩

/-- The `for handler in handlers:` loop of `EventBus.publish`, in the
exception monad: an uncaught exception in an iteration would abort the
loop and propagate. -/
def publish_loop (hs : List DomainEventHandler) (e : DomainEvent) :
    Except Unit (List Invocation) :=
  match hs with
  | [] => .ok []
  | h :: rest =>
    match try_handle h e with
    | .error ex => .error ex
    | .ok inv =>
      match publish_loop rest e with
      | .error ex => .error ex
      | .ok tr => .ok (inv :: tr)

/-- `EventBus.publish`: `handlers = self._handlers.get(type(event), [])`,
then the loop; the returned trace lists the handler invocations in
order. -/
def EventBus.publish (bus : EventBus) (e : DomainEvent) :
    Except Unit (List Invocation) :=
  publish_loop (dict_getD bus.handlers e.etype) e

/-- `EventBus.publish_all`: `for event in events: await self.publish(event)`;
the traces of consecutive events are concatenated, so every invocation for
event n precedes every invocation for event n+1. -/
def EventBus.publish_all (bus : EventBus) (events : List DomainEvent) :
    Except Unit (List Invocation) :=
  match events with
  | [] => .ok []
  | e :: rest =>
    match bus.publish e with
    | .error ex => .error ex
    | .ok tr =>
      match bus.publish_all rest with
      | .error ex => .error ex
      | .ok tr2 => .ok (tr ++ tr2)

/-- `EventBus.clear_handlers`: `self._handlers.clear()`. -/
def EventBus.clear_handlers (_bus : EventBus) : EventBus := ⟨[]⟩

/-- The handlers `publish` dispatches an event to: exactly the bucket
registered under the event's concrete type. -/
def EventBus.handlers_for (bus : EventBus) (t : Nat) :
    List DomainEventHandler :=
  dict_getD bus.handlers t

/-- The full invocation trace `publish` produces for one event. -/
def publish_trace (bus : EventBus) (e : DomainEvent) : List Invocation :=
  (bus.handlers_for e.etype).map (fun h => ⟨h.hid, e, h.handle_raises e⟩)

-- ===== basic lemmas about the registry and the publish loop =====

theorem try_handle_eq (h : DomainEventHandler) (e : DomainEvent) :
    try_handle h e = .ok ⟨h.hid, e, h.handle_raises e⟩ := by
  unfold try_handle DomainEventHandler.handle
  by_cases hr : h.handle_raises e = true
  · simp [hr]
  · simp at hr
    simp [hr]

theorem publish_loop_eq (hs : List DomainEventHandler) (e : DomainEvent) :
    publish_loop hs e =
      .ok (hs.map (fun h => ⟨h.hid, e, h.handle_raises e⟩)) := by
  induction hs with
  | nil => rfl
  | cons h rest ih =>
    unfold publish_loop
    rw [try_handle_eq, ih]
    rfl

theorem publish_eq (bus : EventBus) (e : DomainEvent) :
    bus.publish e = .ok (publish_trace bus e) := by
  unfold EventBus.publish publish_trace EventBus.handlers_for
  exact publish_loop_eq _ e

theorem publish_all_eq (bus : EventBus) (events : List DomainEvent) :
    bus.publish_all events =
      .ok ((events.map (publish_trace bus)).flatten) := by
  induction events with
  | nil => rfl
  | cons e rest ih =>
    unfold EventBus.publish_all
    rw [publish_eq, ih]
    simp [List.flatten]

theorem dict_getD_of_not_contains (m : Registry) (t : Nat)
    (h : dict_contains m t = false) : dict_getD m t = [] := by
  induction m with
  | nil => rfl
  | cons p rest ih =>
    unfold dict_contains at h
    unfold dict_getD
    simp only [Bool.or_eq_false_iff, beq_eq_false_iff_ne, ne_eq] at h
    simp [h.1, ih h.2]

theorem dict_getD_replace_self (m : Registry) (t : Nat)
    (l : List DomainEventHandler) (h : dict_contains m t = true) :
    dict_getD (dict_replace m t l) t = l := by
  induction m with
  | nil => simp [dict_contains] at h
  | cons p rest ih =>
    unfold dict_replace
    by_cases hp : p.1 = t
    · simp [hp, dict_getD]
    · unfold dict_contains at h
      simp only [Bool.or_eq_true, beq_iff_eq] at h
      rcases h with h | h
      · exact absurd h hp
      · simp [hp, dict_getD, ih h]

theorem dict_getD_append_self (m : Registry) (t : Nat)
    (l : List DomainEventHandler) (h : dict_contains m t = false) :
    dict_getD (m ++ [(t, l)]) t = l := by
  induction m with
  | nil => simp [dict_getD]
  | cons p rest ih =>
    unfold dict_contains at h
    simp only [Bool.or_eq_false_iff, beq_eq_false_iff_ne, ne_eq] at h
    show (if p.1 = t then p.2 else dict_getD (rest ++ [(t, l)]) t) = l
    rw [if_neg h.1, ih h.2]

theorem dict_getD_append_single_ne (m : Registry) (t s : Nat)
    (l : List DomainEventHandler) (h : s ≠ t) :
    dict_getD (m ++ [(t, l)]) s = dict_getD m s := by
  induction m with
  | nil =>
    show (if t = s then l else dict_getD [] s) = dict_getD [] s
    rw [if_neg (Ne.symm h)]
  | cons p rest ih =>
    show (if p.1 = s then p.2 else dict_getD (rest ++ [(t, l)]) s) =
      (if p.1 = s then p.2 else dict_getD rest s)
    by_cases hp : p.1 = s
    · rw [if_pos hp, if_pos hp]
    · rw [if_neg hp, if_neg hp, ih]

theorem dict_getD_set_self (m : Registry) (t : Nat)
    (l : List DomainEventHandler) : dict_getD (dict_set m t l) t = l := by
  unfold dict_set
  by_cases h : dict_contains m t = true
  · simp [h, dict_getD_replace_self m t l h]
  · simp only [Bool.not_eq_true] at h
    simp [h, dict_getD_append_self m t l h]

theorem dict_getD_replace_ne (m : Registry) (t s : Nat)
    (l : List DomainEventHandler) (h : s ≠ t) :
    dict_getD (dict_replace m t l) s = dict_getD m s := by
  induction m with
  | nil => rfl
  | cons p rest ih =>
    unfold dict_replace
    by_cases hp : p.1 = t
    · simp [dict_getD, hp, Ne.symm h]
    · simp [dict_getD, hp, ih]

theorem dict_getD_set_ne (m : Registry) (t s : Nat)
    (l : List DomainEventHandler) (h : s ≠ t) :
    dict_getD (dict_set m t l) s = dict_getD m s := by
  unfold dict_set
  by_cases hc : dict_contains m t = true
  · simp [hc, dict_getD_replace_ne m t s l h]
  · simp only [Bool.not_eq_true] at hc
    simp only [hc, Bool.false_eq_true, if_false]
    exact dict_getD_append_single_ne m t s l h

theorem dict_replace_getD_self (m : Registry) (t : Nat) :
    dict_replace m t (dict_getD m t) = m := by
  induction m with
  | nil => rfl
  | cons p rest ih =>
    by_cases hp : p.1 = t
    · have h1 : dict_getD (p :: rest) t = p.2 := by
        show (if p.1 = t then p.2 else dict_getD rest t) = p.2
        rw [if_pos hp]
      rw [h1]
      show (if p.1 = t then (t, p.2) :: rest else p :: dict_replace rest t p.2) =
        p :: rest
      rw [if_pos hp, ← hp]
    · have h1 : dict_getD (p :: rest) t = dict_getD rest t := by
        show (if p.1 = t then p.2 else dict_getD rest t) = dict_getD rest t
        rw [if_neg hp]
      rw [h1]
      show (if p.1 = t then (t, dict_getD rest t) :: rest
        else p :: dict_replace rest t (dict_getD rest t)) = p :: rest
      rw [if_neg hp, ih]

theorem subscribe_handlers_for_self (bus : EventBus) (t : Nat)
    (h : DomainEventHandler) :
    (bus.subscribe t h).handlers_for t = bus.handlers_for t ++ [h] := by
  unfold EventBus.subscribe EventBus.handlers_for
  by_cases hc : dict_contains bus.handlers t = true
  · simp only [hc, if_pos rfl]
    exact dict_getD_set_self _ t _
  · simp only [Bool.not_eq_true] at hc
    simp only [hc, Bool.false_eq_true, if_false]
    rw [dict_getD_set_self]
    rw [dict_getD_set_self, dict_getD_of_not_contains bus.handlers t hc]

theorem subscribe_handlers_for_ne (bus : EventBus) (t s : Nat)
    (h : DomainEventHandler) (hne : s ≠ t) :
    (bus.subscribe t h).handlers_for s = bus.handlers_for s := by
  unfold EventBus.subscribe EventBus.handlers_for
  by_cases hc : dict_contains bus.handlers t = true
  · simp only [hc, if_pos rfl]
    exact dict_getD_set_ne _ t s _ hne
  · simp only [Bool.not_eq_true] at hc
    simp only [hc, Bool.false_eq_true, if_false]
    rw [dict_getD_set_ne _ t s _ hne, dict_getD_set_ne _ t s _ hne]

theorem unsubscribe_handlers_for_self (bus : EventBus) (t : Nat)
    (h : DomainEventHandler) :
    (bus.unsubscribe t h).handlers_for t =
      remove_first (bus.handlers_for t) h.hid := by
  unfold EventBus.unsubscribe EventBus.handlers_for
  by_cases hc : dict_contains bus.handlers t = true
  · simp only [hc, if_pos rfl]
    exact dict_getD_set_self _ t _
  · simp only [Bool.not_eq_true] at hc
    simp only [hc, Bool.false_eq_true, if_false]
    rw [dict_getD_of_not_contains bus.handlers t hc]
    rfl

theorem remove_first_of_not_mem (l : List DomainEventHandler) (i : Nat)
    (h : i ∉ l.map DomainEventHandler.hid) : remove_first l i = l := by
  induction l with
  | nil => rfl
  | cons x rest ih =>
    simp only [List.map_cons, List.mem_cons, not_or] at h
    unfold remove_first
    simp [Ne.symm h.1, ih h.2]

theorem unsubscribe_of_not_mem (bus : EventBus) (t : Nat)
    (h : DomainEventHandler)
    (hnm : h.hid ∉ (bus.handlers_for t).map DomainEventHandler.hid) :
    bus.unsubscribe t h = bus := by
  unfold EventBus.unsubscribe
  by_cases hc : dict_contains bus.handlers t = true
  · simp only [hc, if_pos rfl]
    unfold EventBus.handlers_for at hnm
    rw [remove_first_of_not_mem _ _ hnm]
    unfold dict_set
    simp [hc, dict_replace_getD_self]
  · simp only [Bool.not_eq_true] at hc
    simp [hc]

-- ===== aggregates (base_entity.py / aggregate_root.py) =====

/-- `AggregateRoot` (aggregate_root.py, inheriting `BaseEntity`,
base_entity.py): the entity fields plus the `_domain_events` list.
Timestamps are abstract `Nat` instants. -/
structure AggregateRoot where
  id : Option Nat
  created_at : Nat
  updated_at : Nat
  is_deleted : Bool
  domain_events : List DomainEvent
deriving DecidableEq, Repr

/-- `BaseEntity.get_domain_events`: `return self._domain_events.copy()` —
the value of the pending list (a caller-owned copy; the aliasing aspect is
modelled separately on an explicit heap below). -/
def AggregateRoot.get_domain_events (a : AggregateRoot) : List DomainEvent :=
  a.domain_events

/-- `BaseEntity.clear_domain_events`: `self._domain_events.clear()`. -/
def AggregateRoot.clear_domain_events (a : AggregateRoot) : AggregateRoot :=
  { a with domain_events := [] }

/-- `AggregateRoot.add_domain_event`: appends to `_domain_events`. -/
def AggregateRoot.add_domain_event (a : AggregateRoot) (e : DomainEvent) :
    AggregateRoot :=
  { a with domain_events := a.domain_events ++ [e] }

-- ===== the module-level global bus, on an explicit heap (events.py) =====

/-- Heap of `EventBus` objects: Python object references are `Nat`
addresses; `alloc` models `EventBus()` (fresh object, empty registry). -/
structure BusHeap where
  buses : Nat → EventBus
  next_id : Nat

def BusHeap.alloc (h : BusHeap) : BusHeap × Nat :=
  (⟨fun i => if i = h.next_id then EventBus.init else h.buses i, h.next_id + 1⟩,
   h.next_id)

/-- In-place mutation of the bus object at address `b`. -/
def BusHeap.write (h : BusHeap) (b : Nat) (bus : EventBus) : BusHeap :=
  ⟨fun i => if i = b then bus else h.buses i, h.next_id⟩

/-- Module-level state of events.py: the heap of bus objects and the
`_event_bus: EventBus | None` global. -/
structure Globals where
  heap : BusHeap
  event_bus_global : Option Nat

/-- `get_event_bus()`: lazily construct the global bus on first access. -/
def get_event_bus (g : Globals) : Globals × Nat :=
  match g.event_bus_global with
  | some b => (g, b)
  | none =>
    let (h2, b) := g.heap.alloc
    (⟨h2, some b⟩, b)

/-- `reset_global_event_bus()`: `if _event_bus is not None:
_event_bus.clear_handlers()` (mutating the old bus object in place), then
`_event_bus = EventBus()`. -/
def reset_global_event_bus (g : Globals) : Globals :=
  let h1 := match g.event_bus_global with
            | some b => g.heap.write b ((g.heap.buses b).clear_handlers)
            | none => g.heap
  let (h2, b2) := h1.alloc
  ⟨h2, some b2⟩

/-- `get_event_bus().subscribe(t, h)`: how application code registers a
handler on the (new) global bus. -/
def subscribe_on_global (g : Globals) (t : Nat) (h : DomainEventHandler) :
    Globals :=
  let (g2, b) := get_event_bus g
  { g2 with heap := g2.heap.write b ((g2.heap.buses b).subscribe t h) }

/-- A sequence of registrations on the global bus. -/
def subscribe_all_on_global (g : Globals) :
    List (Nat × DomainEventHandler) → Globals
  | [] => g
  | (t, h) :: rest => subscribe_all_on_global (subscribe_on_global g t h) rest

-- ===== EventPublisher (event_publisher.py) =====

/-- `EventPublisher`: `self._event_bus` holds `None` or a reference to a
bus object. -/
structure EventPublisher where
  event_bus_field : Option Nat

/-- Result of resolving the `event_bus` property: possibly-updated
publisher (the property caches), possibly-updated globals (lazy global
construction), and the resolved bus reference. -/
structure BusAccess where
  publisher : EventPublisher
  globals : Globals
  bus : Nat

/-- The `event_bus` property: `if self._event_bus is None:
self._event_bus = get_event_bus()`, then `return self._event_bus`. -/
def EventPublisher.event_bus (p : EventPublisher) (g : Globals) : BusAccess :=
  match p.event_bus_field with
  | some b => ⟨p, g, b⟩
  | none =>
    let (g2, b) := get_event_bus g
    ⟨⟨some b⟩, g2, b⟩

/-- Result of a publish operation routed through a publisher. -/
structure PublishOutcome where
  publisher : EventPublisher
  globals : Globals
  result : Except Unit (List Invocation)

/-- `EventPublisher.publish_event`: `await self.event_bus.publish(event)`. -/
def EventPublisher.publish_event (p : EventPublisher) (g : Globals)
    (e : DomainEvent) : PublishOutcome :=
  let r := p.event_bus g
  ⟨r.publisher, r.globals, (r.globals.heap.buses r.bus).publish e⟩

/-- `EventPublisher.publish_events`: `await self.event_bus.publish_all(events)`. -/
def EventPublisher.publish_events (p : EventPublisher) (g : Globals)
    (es : List DomainEvent) : PublishOutcome :=
  let r := p.event_bus g
  ⟨r.publisher, r.globals, (r.globals.heap.buses r.bus).publish_all es⟩

/-- Result of `publish_events_from_aggregate`: besides the publish
outcome, the log of `publish_all` calls made on the bus and the updated
aggregate. -/
structure DrainOutcome where
  publisher : EventPublisher
  globals : Globals
  bus_calls : List (List DomainEvent)
  result : Except Unit (List Invocation)
  aggregate : AggregateRoot

/-- `EventPublisher.publish_events_from_aggregate`:
`events = aggregate.get_domain_events()`; `if events:` then
`await self.event_bus.publish_all(events)` followed by
`aggregate.clear_domain_events()`.  When the pending list is empty nothing
runs — not even the `event_bus` property access.  Were `publish_all` to
raise, the exception would propagate and the clearing line would never be
reached. -/
def EventPublisher.publish_events_from_aggregate (p : EventPublisher)
    (g : Globals) (a : AggregateRoot) : DrainOutcome :=
  let events := a.get_domain_events
  if events.isEmpty then ⟨p, g, [], .ok [], a⟩
  else
    let r := p.event_bus g
    match (r.globals.heap.buses r.bus).publish_all events with
    | .error ex => ⟨r.publisher, r.globals, [events], .error ex, a⟩
    | .ok tr =>
      ⟨r.publisher, r.globals, [events], .ok tr, a.clear_domain_events⟩

-- ===== the `.copy()` in get_domain_events, on an explicit list heap =====

/-- Heap of Python `list[DomainEvent]` objects, for the aliasing behaviour
of `BaseEntity.get_domain_events`. -/
structure EventListHeap where
  cells : Nat → List DomainEvent
  next_ref : Nat

/-- An entity as seen by the heap: the reference its `_domain_events`
attribute holds. -/
structure EntityRef where
  events_ref : Nat

/-- `return self._domain_events.copy()` at the heap level: allocate a
fresh list object with the same elements and return its reference. -/
def get_domain_events_ref (s : EventListHeap) (a : EntityRef) :
    EventListHeap × Nat :=
  (⟨fun i => if i = s.next_ref then s.cells a.events_ref else s.cells i,
    s.next_ref + 1⟩,
   s.next_ref)

/-- An arbitrary caller-side mutation of the list object at `r`
(append, clear, element assignment, ... — any resulting contents `l`). -/
def mutate_list (s : EventListHeap) (r : Nat) (l : List DomainEvent) :
    EventListHeap :=
  ⟨fun i => if i = r then l else s.cells i, s.next_ref⟩

-- ===== shared helper lemmas and sample inputs =====

theorem unsubscribe_handlers_for_ne (bus : EventBus) (t s : Nat)
    (h : DomainEventHandler) (hne : s ≠ t) :
    (bus.unsubscribe t h).handlers_for s = bus.handlers_for s := by
  unfold EventBus.unsubscribe EventBus.handlers_for
  by_cases hc : dict_contains bus.handlers t = true
  · simp only [hc, if_pos rfl]
    exact dict_getD_set_ne _ t s _ hne
  · simp only [Bool.not_eq_true] at hc
    simp [hc]

theorem remove_first_append_cons (pre : List DomainEventHandler)
    (h2 : DomainEventHandler) (post : List DomainEventHandler) (i : Nat)
    (hm : h2.hid = i) (hnm : i ∉ pre.map DomainEventHandler.hid) :
    remove_first (pre ++ h2 :: post) i = pre ++ post := by
  induction pre with
  | nil =>
    show (if h2.hid = i then post else h2 :: remove_first post i) = post
    rw [if_pos hm]
  | cons x rest ih =>
    simp only [List.map_cons, List.mem_cons, not_or] at hnm
    show (if x.hid = i then rest ++ h2 :: post
      else x :: remove_first (rest ++ h2 :: post) i) = x :: (rest ++ post)
    rw [if_neg (Ne.symm hnm.1), ih hnm.2]

theorem publish_trace_hids (bus : EventBus) (e : DomainEvent) :
    (publish_trace bus e).map Invocation.hid =
      (bus.handlers_for e.etype).map DomainEventHandler.hid := by
  unfold publish_trace
  rw [List.map_map]
  rfl

theorem publish_all_empty_bus (events : List DomainEvent) :
    EventBus.init.publish_all events = .ok [] := by
  rw [publish_all_eq]
  congr 1
  induction events with
  | nil => rfl
  | cons e rest ih =>
    simp only [List.map_cons]
    rw [List.flatten_cons, ih]
    rfl

/-- A handler whose `handle` always returns normally. -/
def sampleHandler (i : Nat) : DomainEventHandler := ⟨i, fun _ => false⟩

/-- A handler whose `handle` always raises. -/
def raisingHandler (i : Nat) : DomainEventHandler := ⟨i, fun _ => true⟩

/-- A concrete event of class `t` with identity `i`. -/
def sampleEvent (t i : Nat) : DomainEvent := ⟨t, i⟩

-- ===== claims =====

/-- C2: publishing one event of type T invokes `handle` exactly once on each
of the handlers registered for T, in registration order (`subscribe`
appends at the end of the bucket); `publish_all` concatenates the traces of
consecutive events, so all invocations for event n precede those for event
n+1; in particular with H1, H2 subscribed in that order to type t,
`publish_all [e1, e2]` observes H1(e1), H2(e1), H1(e2), H2(e2). -/
theorem C2_delivery_and_ordering :
    (∀ (bus : EventBus) (e : DomainEvent),
      bus.publish e = .ok ((bus.handlers_for e.etype).map
        (fun h => ⟨h.hid, e, h.handle_raises e⟩)))
    ∧ (∀ (bus : EventBus) (t : Nat) (h : DomainEventHandler),
      (bus.subscribe t h).handlers_for t = bus.handlers_for t ++ [h])
    ∧ (∀ (bus : EventBus) (events : List DomainEvent),
      bus.publish_all events = .ok ((events.map (publish_trace bus)).flatten))
    ∧ (∀ (h1 h2 : DomainEventHandler) (t : Nat) (e1 e2 : DomainEvent),
      e1.etype = t → e2.etype = t →
      ((EventBus.init.subscribe t h1).subscribe t h2).publish_all [e1, e2] =
        .ok [⟨h1.hid, e1, h1.handle_raises e1⟩,
             ⟨h2.hid, e1, h2.handle_raises e1⟩,
             ⟨h1.hid, e2, h1.handle_raises e2⟩,
             ⟨h2.hid, e2, h2.handle_raises e2⟩]) := by
  refine ⟨fun bus e => publish_eq bus e, fun bus t h => subscribe_handlers_for_self bus t h,
    fun bus events => publish_all_eq bus events, fun h1 h2 t e1 e2 he1 he2 => ?_⟩
  have hbus : ((EventBus.init.subscribe t h1).subscribe t h2).handlers_for t
      = [h1, h2] := by
    rw [subscribe_handlers_for_self, subscribe_handlers_for_self]
    rfl
  rw [publish_all_eq]
  simp only [List.map_cons, List.map_nil, publish_trace, he1, he2, hbus]
  rfl

/-- Witness for C2 at concrete handlers and events. -/
theorem C2_delivery_and_ordering_witness :
    (sampleEvent 0 1).etype = 0 ∧ (sampleEvent 0 2).etype = 0 ∧
    ((EventBus.init.subscribe 0 (sampleHandler 1)).subscribe 0
        (sampleHandler 2)).publish_all [sampleEvent 0 1, sampleEvent 0 2] =
      .ok [⟨1, sampleEvent 0 1, false⟩, ⟨2, sampleEvent 0 1, false⟩,
           ⟨1, sampleEvent 0 2, false⟩, ⟨2, sampleEvent 0 2, false⟩] :=
  ⟨rfl, rfl,
    C2_delivery_and_ordering.2.2.2 (sampleHandler 1) (sampleHandler 2) 0
      (sampleEvent 0 1) (sampleEvent 0 2) rfl rfl⟩

/-- C1: if the k-th of the N handlers registered for the event's type raises
in `handle`, the bus still invokes every one of the N handlers on that event
(in particular those after position k), the error is not propagated, and
`publish` — and `publish_all` — return normally. -/
theorem C1_handler_fault_isolation (bus : EventBus) (e : DomainEvent)
    (k : Nat) (hk : k < (bus.handlers_for e.etype).length)
    (hraise : ((bus.handlers_for e.etype).get ⟨k, hk⟩).handle_raises e = true) :
    ∃ tr : List Invocation,
      bus.publish e = .ok tr
      ∧ tr.map Invocation.hid =
          (bus.handlers_for e.etype).map DomainEventHandler.hid
      ∧ (tr.map Invocation.hid).drop (k + 1) =
          ((bus.handlers_for e.etype).map DomainEventHandler.hid).drop (k + 1)
      ∧ ∀ es : List DomainEvent, ∃ tr2, bus.publish_all es = .ok tr2 := by
  refine ⟨publish_trace bus e, publish_eq bus e, ?_, ?_, ?_⟩
  · unfold publish_trace
    rw [List.map_map]
    rfl
  · unfold publish_trace
    rw [List.map_map]
    rfl
  · intro es
    exact ⟨_, publish_all_eq bus es⟩

/-- Concrete bus for the C1 witness: the first handler for type 0 raises,
the second does not. -/
def faultyBus : EventBus :=
  (EventBus.init.subscribe 0 (raisingHandler 1)).subscribe 0 (sampleHandler 2)

/-- Witness for C1: both handlers are still invoked and publish succeeds
although the first handler raises. -/
theorem C1_handler_fault_isolation_witness :
    (0 < (faultyBus.handlers_for 0).length)
    ∧ ∃ tr : List Invocation,
        faultyBus.publish (sampleEvent 0 9) = .ok tr
        ∧ tr.map Invocation.hid =
            (faultyBus.handlers_for 0).map DomainEventHandler.hid
        ∧ (tr.map Invocation.hid).drop 1 =
            ((faultyBus.handlers_for 0).map DomainEventHandler.hid).drop 1
        ∧ ∀ es : List DomainEvent, ∃ tr2, faultyBus.publish_all es = .ok tr2 :=
  ⟨by decide,
    C1_handler_fault_isolation faultyBus (sampleEvent 0 9) 0 (by decide) (by decide)⟩

/-- C4: dispatch is by exact concrete event type: the invoked handlers are
exactly the bucket registered under `type(event)`, each invocation carries
that very event, and a handler whose identity is absent from that bucket —
e.g. one registered only under other (related or unrelated) types — is
never invoked. -/
theorem C4_exact_type_dispatch :
    (∀ (bus : EventBus) (e : DomainEvent),
      ∃ tr, bus.publish e = .ok tr
        ∧ tr.map Invocation.hid =
            (bus.handlers_for e.etype).map DomainEventHandler.hid
        ∧ ∀ inv ∈ tr, inv.event = e)
    ∧ (∀ (bus : EventBus) (e : DomainEvent) (h : DomainEventHandler),
        h.hid ∉ (bus.handlers_for e.etype).map DomainEventHandler.hid →
        ∀ tr, bus.publish e = .ok tr → ∀ inv ∈ tr, inv.hid ≠ h.hid) := by
  constructor
  · intro bus e
    refine ⟨publish_trace bus e, publish_eq bus e, ?_, ?_⟩
    · unfold publish_trace
      rw [List.map_map]
      rfl
    · intro inv hinv
      unfold publish_trace at hinv
      rcases List.mem_map.mp hinv with ⟨h, _, rfl⟩
      rfl
  · intro bus e h hnm tr htr inv hinv heq
    rw [publish_eq] at htr
    have htr2 : tr = publish_trace bus e := by
      injection htr with h2
      exact h2.symm
    subst htr2
    apply hnm
    rw [← heq]
    have hm : inv.hid ∈ (publish_trace bus e).map Invocation.hid :=
      List.mem_map.mpr ⟨inv, hinv, rfl⟩
    rwa [publish_trace_hids] at hm

/-- Concrete bus for the C4 witness: a handler registered only for type 1. -/
def otherTypeBus : EventBus := EventBus.init.subscribe 1 (sampleHandler 7)

/-- Witness for C4: publishing an event of type 0 delivers nothing to the
handler registered for type 1. -/
theorem C4_exact_type_dispatch_witness :
    ((sampleHandler 7).hid ∉
      (otherTypeBus.handlers_for (sampleEvent 0 3).etype).map
        DomainEventHandler.hid)
    ∧ ∀ tr, otherTypeBus.publish (sampleEvent 0 3) = .ok tr →
        ∀ inv ∈ tr, inv.hid ≠ (sampleHandler 7).hid :=
  ⟨by decide,
    C4_exact_type_dispatch.2 otherTypeBus (sampleEvent 0 3) (sampleHandler 7)
      (by decide)⟩

theorem count_remove_first_append (l : List DomainEventHandler)
    (h : DomainEventHandler) :
    ((remove_first (l ++ [h]) h.hid).map DomainEventHandler.hid).count h.hid
      = (l.map DomainEventHandler.hid).count h.hid := by
  induction l with
  | nil =>
    show ((if h.hid = h.hid then ([] : List DomainEventHandler)
      else h :: remove_first [] h.hid).map DomainEventHandler.hid).count h.hid
      = (([] : List DomainEventHandler).map DomainEventHandler.hid).count h.hid
    rw [if_pos rfl]
  | cons x rest ih =>
    show ((if x.hid = h.hid then rest ++ [h]
      else x :: remove_first (rest ++ [h]) h.hid).map
        DomainEventHandler.hid).count h.hid
      = ((x :: rest).map DomainEventHandler.hid).count h.hid
    by_cases hx : x.hid = h.hid
    · rw [if_pos hx]
      simp [List.count_append, List.count_cons, hx]
    · rw [if_neg hx]
      rw [List.map_cons, List.map_cons, List.count_cons, List.count_cons, ih]

/-- Number of handler calls recorded in a publish result (0 when an
exception escaped). -/
def trace_len : Except Unit (List Invocation) → Nat
  | .ok l => l.length
  | .error _ => 0

/-- Pre-registered bus refuting C6 as frozen: handler 3 is already
subscribed once for type 0. -/
def preRegisteredBusC6 : EventBus := EventBus.init.subscribe 0 (sampleHandler 3)

/-- C6 is false as frozen: on a bus state where the handler is already
registered once for the type, subscribing it twice more yields three
entries for that type, and the next publish invokes its `handle` three
times, not exactly twice. -/
theorem C6_counterexample_preregistered :
    ((preRegisteredBusC6.handlers_for 0).map DomainEventHandler.hid).count 3
        = 1
    ∧ ((((preRegisteredBusC6.subscribe 0 (sampleHandler 3)).subscribe 0
        (sampleHandler 3)).handlers_for 0).map DomainEventHandler.hid).count 3
        = 3
    ∧ ((preRegisteredBusC6.subscribe 0 (sampleHandler 3)).subscribe 0
        (sampleHandler 3)).publish (sampleEvent 0 0)
        = .ok [⟨3, sampleEvent 0 0, false⟩, ⟨3, sampleEvent 0 0, false⟩,
               ⟨3, sampleEvent 0 0, false⟩]
    ∧ trace_len (((preRegisteredBusC6.subscribe 0 (sampleHandler 3)).subscribe
        0 (sampleHandler 3)).publish (sampleEvent 0 0)) ≠ 2 :=
  ⟨rfl, rfl, rfl, by decide⟩

/-- C6 (amended): the registry performs no deduplication on subscribe: for
every bus state, subscribing the same handler instance twice to the same
event type appends two entries for it to that type's bucket, and a
subsequent publish of one event of that type invokes its `handle` exactly
two more times than its prior registration count for that type — hence
exactly twice when it was not already registered. -/
theorem C6_duplicate_subscription_count (bus : EventBus)
    (h : DomainEventHandler) (e : DomainEvent) :
    ((bus.subscribe e.etype h).subscribe e.etype h).handlers_for e.etype
        = bus.handlers_for e.etype ++ [h, h]
    ∧ ∃ tr, ((bus.subscribe e.etype h).subscribe e.etype h).publish e
        = .ok tr ∧
        (tr.map Invocation.hid).count h.hid
          = ((bus.handlers_for e.etype).map DomainEventHandler.hid).count h.hid
            + 2 := by
  have hb : ((bus.subscribe e.etype h).subscribe e.etype h).handlers_for
      e.etype = bus.handlers_for e.etype ++ [h, h] := by
    rw [subscribe_handlers_for_self, subscribe_handlers_for_self,
      List.append_assoc]
    rfl
  refine ⟨hb, publish_trace _ e, publish_eq _ e, ?_⟩
  rw [publish_trace_hids, hb, List.map_append, List.count_append]
  simp [List.count_cons]

/-- Pre-registered bus refuting C7 as frozen: handler 4 is already
subscribed once for type 0. -/
def preRegisteredBusC7 : EventBus := EventBus.init.subscribe 0 (sampleHandler 4)

/-- C7 is false as frozen: on a bus state where the handler is already
registered once for the type, subscribing it and then unsubscribing it
leaves one registration (`list.remove` drops the first match, here the
pre-existing entry), so the next publish of that type delivers once to it,
not zero times. -/
theorem C7_counterexample_preregistered :
    ((preRegisteredBusC7.handlers_for 0).map DomainEventHandler.hid).count 4
        = 1
    ∧ ((preRegisteredBusC7.subscribe 0 (sampleHandler 4)).unsubscribe 0
        (sampleHandler 4)).publish (sampleEvent 0 0)
        = .ok [⟨4, sampleEvent 0 0, false⟩]
    ∧ trace_len (((preRegisteredBusC7.subscribe 0
        (sampleHandler 4)).unsubscribe 0 (sampleHandler 4)).publish
        (sampleEvent 0 0)) ≠ 0 :=
  ⟨rfl, rfl, by decide⟩

/-- C7 (amended): `unsubscribe` removes exactly the first registration whose
identity matches, is a no-op (not an error) when the handler is not
registered for that type, touches no other type's bucket, and subscribing
then unsubscribing the same handler for the same type leaves the number of
deliveries to that handler on the next publish of that type equal to its
prior registration count — zero exactly when it was not otherwise
registered for that type. -/
theorem C7_unsubscribe_first_match (bus : EventBus) (t : Nat)
    (h : DomainEventHandler) :
    (∀ pre h2 post, bus.handlers_for t = pre ++ h2 :: post →
        h2.hid = h.hid → h.hid ∉ pre.map DomainEventHandler.hid →
        (bus.unsubscribe t h).handlers_for t = pre ++ post)
    ∧ (h.hid ∉ (bus.handlers_for t).map DomainEventHandler.hid →
        bus.unsubscribe t h = bus)
    ∧ (∀ s, s ≠ t → (bus.unsubscribe t h).handlers_for s = bus.handlers_for s)
    ∧ (∀ e : DomainEvent, e.etype = t →
        ∃ tr, ((bus.subscribe t h).unsubscribe t h).publish e = .ok tr ∧
          (tr.map Invocation.hid).count h.hid
            = ((bus.handlers_for t).map DomainEventHandler.hid).count
                h.hid) := by
  refine ⟨?_, unsubscribe_of_not_mem bus t h, ?_, ?_⟩
  · intro pre h2 post hsplit hm hnm
    rw [unsubscribe_handlers_for_self, hsplit]
    exact remove_first_append_cons pre h2 post h.hid hm hnm
  · intro s hs
    exact unsubscribe_handlers_for_ne bus t s h hs
  · intro e he
    have hb : ((bus.subscribe t h).unsubscribe t h).handlers_for t
        = remove_first (bus.handlers_for t ++ [h]) h.hid := by
      rw [unsubscribe_handlers_for_self, subscribe_handlers_for_self]
    refine ⟨publish_trace _ e, publish_eq _ e, ?_⟩
    rw [publish_trace_hids, he, hb, count_remove_first_append]

/-- Witness for C7 (amended): on the empty bus, unsubscribing an
unregistered handler is a no-op, removing after one subscribe empties the
bucket, and subscribe-then-unsubscribe delivers zero times (the prior
registration count). -/
theorem C7_unsubscribe_first_match_witness :
    ((sampleHandler 1).hid ∉
        (EventBus.init.handlers_for 0).map DomainEventHandler.hid)
    ∧ EventBus.init.unsubscribe 0 (sampleHandler 1) = EventBus.init
    ∧ ((EventBus.init.subscribe 0 (sampleHandler 1)).handlers_for 0
        = [] ++ sampleHandler 1 :: [])
    ∧ ((EventBus.init.subscribe 0 (sampleHandler 1)).unsubscribe 0
        (sampleHandler 1)).handlers_for 0 = [] ++ []
    ∧ ((sampleEvent 0 0).etype = 0)
    ∧ ∃ tr, ((EventBus.init.subscribe 0 (sampleHandler 1)).unsubscribe 0
        (sampleHandler 1)).publish (sampleEvent 0 0) = .ok tr ∧
        (tr.map Invocation.hid).count (sampleHandler 1).hid
          = ((EventBus.init.handlers_for 0).map DomainEventHandler.hid).count
              (sampleHandler 1).hid :=
  ⟨by decide,
    (C7_unsubscribe_first_match EventBus.init 0 (sampleHandler 1)).2.1
      (by decide),
    rfl,
    (C7_unsubscribe_first_match (EventBus.init.subscribe 0 (sampleHandler 1))
      0 (sampleHandler 1)).1 [] (sampleHandler 1) [] rfl rfl (by decide),
    rfl,
    (C7_unsubscribe_first_match EventBus.init 0 (sampleHandler 1)).2.2.2
      (sampleEvent 0 0) rfl⟩

/-- C8: `clear_domain_events` is idempotent: clearing twice equals clearing
once, and the pending list reads empty after either. -/
theorem C8_clear_idempotent (a : AggregateRoot) :
    a.clear_domain_events.clear_domain_events = a.clear_domain_events
    ∧ a.clear_domain_events.get_domain_events = []
    ∧ a.clear_domain_events.clear_domain_events.get_domain_events = [] :=
  ⟨rfl, rfl, rfl⟩

/-- C3: `publish_events_from_aggregate` reads the pending events; when the
list is empty it is a complete no-op — no bus call is logged and publisher,
globals and aggregate are returned unchanged; when non-empty it makes
exactly one `publish_all` call carrying the pending events in order, that
call returns normally with the concatenated per-event traces, and then
exactly the pending list of the aggregate is cleared (every other aggregate
field is untouched). -/
theorem C3_drain_behaviour (p : EventPublisher) (g : Globals)
    (a : AggregateRoot) :
    (a.get_domain_events = [] →
      p.publish_events_from_aggregate g a =
        ⟨p, g, [], .ok [], a⟩)
    ∧ (a.get_domain_events ≠ [] →
      (p.publish_events_from_aggregate g a).bus_calls = [a.get_domain_events]
      ∧ (p.publish_events_from_aggregate g a).result =
          .ok ((a.get_domain_events.map
            (publish_trace ((p.event_bus g).globals.heap.buses
              (p.event_bus g).bus))).flatten)
      ∧ (p.publish_events_from_aggregate g a).globals = (p.event_bus g).globals
      ∧ (p.publish_events_from_aggregate g a).aggregate = a.clear_domain_events
      ∧ (p.publish_events_from_aggregate g a).aggregate.get_domain_events = []
      ∧ (p.publish_events_from_aggregate g a).aggregate.id = a.id
      ∧ (p.publish_events_from_aggregate g a).aggregate.created_at = a.created_at
      ∧ (p.publish_events_from_aggregate g a).aggregate.updated_at = a.updated_at
      ∧ (p.publish_events_from_aggregate g a).aggregate.is_deleted
          = a.is_deleted) := by
  constructor
  · intro hemp
    simp only [EventPublisher.publish_events_from_aggregate, hemp,
      List.isEmpty_nil, if_true]
  · intro hne
    have hie : a.get_domain_events.isEmpty = false := by
      cases hl : a.get_domain_events with
      | nil => exact absurd hl hne
      | cons x xs => rfl
    simp only [EventPublisher.publish_events_from_aggregate, hie,
      Bool.false_eq_true, if_false]
    rw [publish_all_eq]
    exact ⟨rfl, rfl, rfl, rfl, rfl, rfl, rfl, rfl, rfl⟩

/-- A bus with one handler for type 0, living at heap address 0. -/
def sampleBus : EventBus := EventBus.init.subscribe 0 (sampleHandler 1)

/-- Globals whose heap has `sampleBus` at every address and whose global
bus reference is address 0. -/
def sampleGlobals : Globals := ⟨⟨fun _ => sampleBus, 1⟩, some 0⟩

/-- A publisher constructed with an injected bus (heap address 0). -/
def injectedPublisher : EventPublisher := ⟨some 0⟩

/-- An aggregate with no pending events. -/
def emptyAgg : AggregateRoot := ⟨some 1, 0, 0, false, []⟩

/-- An aggregate with one pending event of type 0. -/
def busyAgg : AggregateRoot := ⟨some 2, 0, 0, false, [sampleEvent 0 4]⟩

/-- Witness for C3 on both branches: the empty aggregate is left alone with
no bus call, the non-empty one logs one `publish_all` call and is cleared. -/
theorem C3_drain_behaviour_witness :
    (emptyAgg.get_domain_events = [])
    ∧ injectedPublisher.publish_events_from_aggregate sampleGlobals emptyAgg =
        ⟨injectedPublisher, sampleGlobals, [], .ok [], emptyAgg⟩
    ∧ (busyAgg.get_domain_events ≠ [])
    ∧ (injectedPublisher.publish_events_from_aggregate sampleGlobals
        busyAgg).bus_calls = [busyAgg.get_domain_events]
    ∧ (injectedPublisher.publish_events_from_aggregate sampleGlobals
        busyAgg).aggregate = busyAgg.clear_domain_events :=
  ⟨rfl,
    (C3_drain_behaviour injectedPublisher sampleGlobals emptyAgg).1 rfl,
    by decide,
    ((C3_drain_behaviour injectedPublisher sampleGlobals busyAgg).2
      (by decide)).1,
    ((C3_drain_behaviour injectedPublisher sampleGlobals busyAgg).2
      (by decide)).2.2.2.1⟩

/-- A bus with two handlers registered for type 0, for the C5
counterexample. -/
def twoHandlerBus : EventBus :=
  (EventBus.init.subscribe 0 (sampleHandler 1)).subscribe 0 (sampleHandler 2)

/-- Globals whose heap has `twoHandlerBus` at every address. -/
def twoHandlerGlobals : Globals := ⟨⟨fun _ => twoHandlerBus, 1⟩, some 0⟩

/-- An aggregate with exactly one pending event (k = 1). -/
def oneEventAgg : AggregateRoot := ⟨some 3, 0, 0, false, [sampleEvent 0 0]⟩

/-- C5 is false as stated: with k = 1 pending event and two handlers
subscribed for its type, `publish_from_aggregate` makes 2 handler calls,
not k = 1. -/
theorem C5_counterexample_two_handlers :
    oneEventAgg.get_domain_events.length = 1
    ∧ trace_len ((EventPublisher.mk (some 0)).publish_events_from_aggregate
        twoHandlerGlobals oneEventAgg).result = 2
    ∧ trace_len ((EventPublisher.mk (some 0)).publish_events_from_aggregate
        twoHandlerGlobals oneEventAgg).result
        ≠ oneEventAgg.get_domain_events.length :=
  ⟨rfl, rfl, by decide⟩

/-- C5 (amended): draining an aggregate produces one handler call per
(pending event, handler registered for that event's concrete type) pair —
the pending count k exactly when each pending event's type has exactly one
registered handler — and leaves the aggregate's pending list empty. -/
theorem C5_drain_call_count (p : EventPublisher) (g : Globals)
    (a : AggregateRoot) :
    trace_len (p.publish_events_from_aggregate g a).result =
      (a.get_domain_events.map (fun e =>
        (((p.event_bus g).globals.heap.buses
            (p.event_bus g).bus).handlers_for e.etype).length)).sum
    ∧ (p.publish_events_from_aggregate g a).aggregate.get_domain_events
        = [] := by
  by_cases hemp : a.get_domain_events = []
  · constructor
    · simp only [EventPublisher.publish_events_from_aggregate, hemp,
        List.isEmpty_nil, if_true, List.map_nil, List.sum_nil]
      rfl
    · simp only [EventPublisher.publish_events_from_aggregate, hemp,
        List.isEmpty_nil, if_true]
  · have hie : a.get_domain_events.isEmpty = false := by
      cases hl : a.get_domain_events with
      | nil => exact absurd hl hemp
      | cons x xs => rfl
    constructor
    · simp only [EventPublisher.publish_events_from_aggregate, hie,
        Bool.false_eq_true, if_false]
      rw [publish_all_eq]
      show ((a.get_domain_events.map (publish_trace _)).flatten).length = _
      rw [List.length_flatten, List.map_map]
      apply congrArg List.sum
      apply List.map_congr_left
      intro e _
      show (publish_trace _ e).length = _
      unfold publish_trace
      rw [List.length_map]
    · simp only [EventPublisher.publish_events_from_aggregate, hie,
        Bool.false_eq_true, if_false]
      rw [publish_all_eq]
      rfl

/-- C9: `get_domain_events` returns a reference to a fresh copy of the
pending list: the copy holds the same contents, its reference differs from
the internal one, and any caller mutation through the returned reference
leaves the entity's internal list — and every other heap object —
unchanged. -/
theorem C9_returned_copy_isolation (s : EventListHeap) (a : EntityRef)
    (hwf : a.events_ref < s.next_ref) (l : List DomainEvent) :
    (get_domain_events_ref s a).1.cells (get_domain_events_ref s a).2 =
        s.cells a.events_ref
    ∧ (get_domain_events_ref s a).2 ≠ a.events_ref
    ∧ (mutate_list (get_domain_events_ref s a).1 (get_domain_events_ref s a).2
        l).cells a.events_ref = s.cells a.events_ref
    ∧ ∀ j, j ≠ (get_domain_events_ref s a).2 →
        (mutate_list (get_domain_events_ref s a).1
          (get_domain_events_ref s a).2 l).cells j = s.cells j := by
  have ha : a.events_ref ≠ s.next_ref := Nat.ne_of_lt hwf
  refine ⟨?_, fun hh => ha hh.symm, ?_, ?_⟩
  · show (if s.next_ref = s.next_ref then s.cells a.events_ref
      else s.cells s.next_ref) = s.cells a.events_ref
    rw [if_pos rfl]
  · show (if a.events_ref = s.next_ref then l
      else (get_domain_events_ref s a).1.cells a.events_ref)
        = s.cells a.events_ref
    rw [if_neg ha]
    show (if a.events_ref = s.next_ref then s.cells a.events_ref
      else s.cells a.events_ref) = s.cells a.events_ref
    rw [if_neg ha]
  · intro j hj
    have hj2 : j ≠ s.next_ref := hj
    show (if j = s.next_ref then l
      else (get_domain_events_ref s a).1.cells j) = s.cells j
    rw [if_neg hj2]
    show (if j = s.next_ref then s.cells a.events_ref else s.cells j)
      = s.cells j
    rw [if_neg hj2]

/-- A one-cell list heap for the C9 witness. -/
def singleListHeap : EventListHeap := ⟨fun _ => [sampleEvent 0 0], 1⟩

/-- Witness for C9: copying, then clearing the copy, leaves the entity's
internal list intact. -/
theorem C9_returned_copy_isolation_witness :
    ((⟨0⟩ : EntityRef).events_ref < singleListHeap.next_ref)
    ∧ (get_domain_events_ref singleListHeap ⟨0⟩).1.cells
        (get_domain_events_ref singleListHeap ⟨0⟩).2
        = singleListHeap.cells 0
    ∧ (mutate_list (get_domain_events_ref singleListHeap ⟨0⟩).1
        (get_domain_events_ref singleListHeap ⟨0⟩).2 []).cells 0
        = singleListHeap.cells 0 :=
  ⟨by decide,
    (C9_returned_copy_isolation singleListHeap ⟨0⟩ (by decide) []).1,
    (C9_returned_copy_isolation singleListHeap ⟨0⟩ (by decide) []).2.2.1⟩

-- ===== C10: the stale cached bus after a global reset =====

theorem event_bus_of_cached (p : EventPublisher) (g : Globals) (b : Nat)
    (hp : p.event_bus_field = some b) : p.event_bus g = ⟨p, g, b⟩ := by
  unfold EventPublisher.event_bus
  rw [hp]

theorem subscribe_all_on_global_preserves
    (subs : List (Nat × DomainEventHandler)) (g : Globals) (b b2 : Nat)
    (hg : g.event_bus_global = some b2) (hne : b ≠ b2) :
    (subscribe_all_on_global g subs).heap.buses b = g.heap.buses b
    ∧ (subscribe_all_on_global g subs).event_bus_global = some b2 := by
  induction subs generalizing g with
  | nil => exact ⟨rfl, hg⟩
  | cons th rest ih =>
    obtain ⟨t, h⟩ := th
    have hsub1 : (subscribe_on_global g t h).event_bus_global = some b2 := by
      simp only [subscribe_on_global, get_event_bus, hg]
    have hsub2 : (subscribe_on_global g t h).heap.buses b = g.heap.buses b := by
      simp only [subscribe_on_global, get_event_bus, hg, BusHeap.write]
      rw [if_neg hne]
    rcases ih (subscribe_on_global g t h) hsub1 with ⟨h3, h4⟩
    exact ⟨h3.trans hsub2, h4⟩

/-- The C10 scenario: construct `EventPublisher()` with no injected bus,
access its `event_bus` property once (which caches the then-current global
bus), then call `reset_global_event_bus()` and register `subs` on the new
global bus.  Yields the previously-used publisher and the final globals. -/
def stale_publisher_scenario (g : Globals)
    (subs : List (Nat × DomainEventHandler)) : EventPublisher × Globals :=
  let r := EventPublisher.event_bus ⟨none⟩ g
  (r.publisher, subscribe_all_on_global (reset_global_event_bus r.globals) subs)

theorem alloc_buses (h : BusHeap) (i : Nat) :
    h.alloc.1.buses i = if i = h.next_id then EventBus.init else h.buses i :=
  rfl

theorem alloc_bus_id (h : BusHeap) : h.alloc.2 = h.next_id := rfl

theorem write_buses (h : BusHeap) (b : Nat) (bus : EventBus) (i : Nat) :
    (h.write b bus).buses i = if i = b then bus else h.buses i := rfl

theorem write_next (h : BusHeap) (b : Nat) (bus : EventBus) :
    (h.write b bus).next_id = h.next_id := rfl

theorem reset_global_some (G : Globals) (b : Nat)
    (hG : G.event_bus_global = some b) :
    reset_global_event_bus G =
      ⟨(G.heap.write b ((G.heap.buses b).clear_handlers)).alloc.1,
       some (G.heap.write b ((G.heap.buses b).clear_handlers)).alloc.2⟩ := by
  unfold reset_global_event_bus
  rw [hG]

/-- C10: a publisher constructed without an injected bus caches the global
bus on first access of `event_bus`; `reset_global_event_bus` clears that
old bus object's registry in place before installing a fresh global bus, so
the previously-used publisher keeps a reference to the old, now-empty bus:
later registrations land on the new global bus, and every event published
through the stale publisher — `publish_event`, `publish_events`,
`publish_events_from_aggregate` — invokes zero handlers. -/
theorem C10_stale_cached_bus (g : Globals)
    (hwf : ∀ b, g.event_bus_global = some b → b < g.heap.next_id)
    (subs : List (Nat × DomainEventHandler)) (e : DomainEvent)
    (es : List DomainEvent) (a : AggregateRoot) :
    (stale_publisher_scenario g subs).1.event_bus_field =
        some (EventPublisher.event_bus ⟨none⟩ g).bus
    ∧ (stale_publisher_scenario g subs).2.heap.buses
        (EventPublisher.event_bus ⟨none⟩ g).bus = EventBus.init
    ∧ (stale_publisher_scenario g subs).2.event_bus_global ≠
        some (EventPublisher.event_bus ⟨none⟩ g).bus
    ∧ ((stale_publisher_scenario g subs).1.publish_event
        (stale_publisher_scenario g subs).2 e).result = .ok []
    ∧ ((stale_publisher_scenario g subs).1.publish_events
        (stale_publisher_scenario g subs).2 es).result = .ok []
    ∧ ((stale_publisher_scenario g subs).1.publish_events_from_aggregate
        (stale_publisher_scenario g subs).2 a).result = .ok [] := by
  have hf1 : (EventPublisher.event_bus ⟨none⟩ g).publisher.event_bus_field
      = some (EventPublisher.event_bus ⟨none⟩ g).bus := by
    cases hg : g.event_bus_global with
    | none => simp only [EventPublisher.event_bus, get_event_bus, hg]
    | some b => simp only [EventPublisher.event_bus, get_event_bus, hg]
  have hf2 : (EventPublisher.event_bus ⟨none⟩ g).globals.event_bus_global
      = some (EventPublisher.event_bus ⟨none⟩ g).bus := by
    cases hg : g.event_bus_global with
    | none => simp only [EventPublisher.event_bus, get_event_bus, hg, BusHeap.alloc]
    | some b => simp only [EventPublisher.event_bus, get_event_bus, hg]
  have hf3 : (EventPublisher.event_bus ⟨none⟩ g).bus
      < (EventPublisher.event_bus ⟨none⟩ g).globals.heap.next_id := by
    cases hg : g.event_bus_global with
    | none =>
      simp only [EventPublisher.event_bus, get_event_bus, hg, BusHeap.alloc]
      exact Nat.lt_succ_self _
    | some b =>
      simp only [EventPublisher.event_bus, get_event_bus, hg]
      exact hwf b hg
  have hb_ne : (EventPublisher.event_bus ⟨none⟩ g).bus
      ≠ (EventPublisher.event_bus ⟨none⟩ g).globals.heap.next_id :=
    Nat.ne_of_lt hf3
  have hreset1 :
      (reset_global_event_bus
          (EventPublisher.event_bus ⟨none⟩ g).globals).event_bus_global
        = some (EventPublisher.event_bus ⟨none⟩ g).globals.heap.next_id := by
    rw [reset_global_some _ _ hf2]
    rw [alloc_bus_id, write_next]
  have hreset2 :
      (reset_global_event_bus
          (EventPublisher.event_bus ⟨none⟩ g).globals).heap.buses
          (EventPublisher.event_bus ⟨none⟩ g).bus = EventBus.init := by
    rw [reset_global_some _ _ hf2]
    show ((EventPublisher.event_bus ⟨none⟩ g).globals.heap.write _
      ((EventPublisher.event_bus ⟨none⟩ g).globals.heap.buses _
        ).clear_handlers).alloc.1.buses _ = EventBus.init
    rw [alloc_buses, write_next, if_neg hb_ne, write_buses, if_pos rfl]
    rfl
  obtain ⟨hp1, hp2⟩ := subscribe_all_on_global_preserves subs
    (reset_global_event_bus (EventPublisher.event_bus ⟨none⟩ g).globals)
    (EventPublisher.event_bus ⟨none⟩ g).bus
    (EventPublisher.event_bus ⟨none⟩ g).globals.heap.next_id hreset1 hb_ne
  have hbus : (stale_publisher_scenario g subs).2.heap.buses
      (EventPublisher.event_bus ⟨none⟩ g).bus = EventBus.init := by
    simp only [stale_publisher_scenario]
    exact hp1.trans hreset2
  refine ⟨hf1, hbus, ?_, ?_, ?_, ?_⟩
  · simp only [stale_publisher_scenario]
    intro heq
    rw [hp2] at heq
    exact hb_ne (Option.some.inj heq).symm
  · unfold EventPublisher.publish_event
    rw [event_bus_of_cached ((stale_publisher_scenario g subs).1) _ _ hf1]
    show ((stale_publisher_scenario g subs).2.heap.buses
      (EventPublisher.event_bus ⟨none⟩ g).bus).publish e = .ok []
    rw [hbus]
    rfl
  · unfold EventPublisher.publish_events
    rw [event_bus_of_cached ((stale_publisher_scenario g subs).1) _ _ hf1]
    show ((stale_publisher_scenario g subs).2.heap.buses
      (EventPublisher.event_bus ⟨none⟩ g).bus).publish_all es = .ok []
    rw [hbus]
    exact publish_all_empty_bus es
  · by_cases hemp : a.get_domain_events = []
    · simp only [EventPublisher.publish_events_from_aggregate, hemp,
        List.isEmpty_nil, if_true]
    · have hie : a.get_domain_events.isEmpty = false := by
        cases hl : a.get_domain_events with
        | nil => exact absurd hl hemp
        | cons x xs => rfl
      simp only [EventPublisher.publish_events_from_aggregate, hie,
        Bool.false_eq_true, if_false]
      rw [event_bus_of_cached ((stale_publisher_scenario g subs).1) _ _ hf1]
      show (match ((stale_publisher_scenario g subs).2.heap.buses
          (EventPublisher.event_bus ⟨none⟩ g).bus).publish_all
          a.get_domain_events with
        | .error ex => DrainOutcome.mk ((stale_publisher_scenario g subs).1)
            ((stale_publisher_scenario g subs).2) [a.get_domain_events]
            (.error ex) a
        | .ok tr => DrainOutcome.mk ((stale_publisher_scenario g subs).1)
            ((stale_publisher_scenario g subs).2) [a.get_domain_events]
            (.ok tr) a.clear_domain_events).result = .ok []
      rw [hbus, publish_all_empty_bus]

/-- A fresh module state: no global bus constructed yet, empty heap. -/
def freshGlobals : Globals := ⟨⟨fun _ => EventBus.init, 0⟩, none⟩

/-- An aggregate with one pending event of type 0, for the C10 witness. -/
def staleAgg : AggregateRoot := ⟨some 9, 0, 0, false, [sampleEvent 0 7]⟩

/-- Witness for C10: even with a handler for type 0 registered on the new
global bus after the reset, the stale publisher delivers a type-0 event to
nobody. -/
theorem C10_stale_cached_bus_witness :
    (∀ b, freshGlobals.event_bus_global = some b → b < freshGlobals.heap.next_id)
    ∧ (stale_publisher_scenario freshGlobals [(0, sampleHandler 5)]).2.heap.buses
        (EventPublisher.event_bus ⟨none⟩ freshGlobals).bus = EventBus.init
    ∧ ((stale_publisher_scenario freshGlobals
          [(0, sampleHandler 5)]).1.publish_event
        (stale_publisher_scenario freshGlobals [(0, sampleHandler 5)]).2
        (sampleEvent 0 7)).result = .ok []
    ∧ ((stale_publisher_scenario freshGlobals
          [(0, sampleHandler 5)]).1.publish_events_from_aggregate
        (stale_publisher_scenario freshGlobals [(0, sampleHandler 5)]).2
        staleAgg).result = .ok [] := by
  have hwf : ∀ b, freshGlobals.event_bus_global = some b →
      b < freshGlobals.heap.next_id := by
    intro b hb
    exact nomatch hb
  refine ⟨hwf, ?_, ?_, ?_⟩
  · exact (C10_stale_cached_bus freshGlobals hwf [(0, sampleHandler 5)]
      (sampleEvent 0 7) [] staleAgg).2.1
  · exact (C10_stale_cached_bus freshGlobals hwf [(0, sampleHandler 5)]
      (sampleEvent 0 7) [] staleAgg).2.2.2.1
  · exact (C10_stale_cached_bus freshGlobals hwf [(0, sampleHandler 5)]
      (sampleEvent 0 7) [] staleAgg).2.2.2.2.2
